import Mathlib

/-!
Shallow embedding of the `psiphon` package fragment (remoteServerList.go and
the connection/proxy utilities): the `Conns` registry, `HttpProxyConnect`,
`validateRemoteServerList` and `FetchRemoteServerList`. Go strings are
`List Char`; Go byte slices are `List Nat`; Go `error` is `Option GoErr` or
`Except GoErr`; external collaborators (crypto primitives, HTTP transport,
JSON decoding, server-entry decoding and storage, connection close) are
oracle parameters, and the calls this code makes to them are recorded as
events so that invocation order and guarding can be stated.
-/

/-- Go string, modelled as its character list. -/
abbrev GoStr := List Char

/-- Coerces a Lean string literal to the `GoStr` model. -/
def str (s : String) : GoStr := s.data

/-- Go error value: either a plain error (`errors.New` / a collaborator's
error) or one wrapped by the `ContextError` collaborator. -/
inductive GoErr
  | mk (msg : GoStr)
  | context (e : GoErr)
deriving DecidableEq, Repr

/-- ContextError from the psiphon package (external collaborator): wraps an
error with call-site context. Only the wrapping structure is modelled. -/
def ContextError (e : GoErr) : GoErr := GoErr.context e

/-- Innermost message of an error, ignoring the context wrapping that
`ContextError` adds. -/
def GoErr.detail : GoErr → GoStr
  | .mk m => m
  | .context e => e.detail

/-- Conns (remoteServerList.go companion file): a synchronized list of
connections. Connections are identified by `Nat` handles; `conns == nil`
(the Go zero value of the map field) is `none`. The mutex serializes all
operations, so each operation is a pure state transition here. -/
structure Conns where
  isClosed : Bool
  conns : Option (Finset Nat)

/-- Membership of the registry: the key set of the `conns` map, empty when
the map is nil. -/
def Conns.members (c : Conns) : Finset Nat :=
  match c.conns with
  | none => ∅
  | some m => m

/-- Conns.Reset: clears the closed flag and installs a fresh empty map. -/
def Conns.Reset (_c : Conns) : Conns :=
  { isClosed := false, conns := some ∅ }

/-- Conns.Add: fails (returning the state unchanged) when closed; otherwise
allocates the map if nil and inserts the connection, returning true. -/
def Conns.Add (c : Conns) (conn : Nat) : Bool × Conns :=
  if c.isClosed then (false, c)
  else
    let m := match c.conns with
      | none => (∅ : Finset Nat)
      | some m => m
    (true, { isClosed := c.isClosed, conns := some (insert conn m) })

/-- Conns.Remove: deletes the connection from the map (a no-op on a nil
map, as Go's `delete` is). -/
def Conns.Remove (c : Conns) (conn : Nat) : Conns :=
  { isClosed := c.isClosed, conns := c.conns.map (fun m => m.erase conn) }

/-- Observable calls Conns makes to collaborators: `conn.Close()` (with the
error that call returned, `none` for success) and `NoticeAlert` logging. -/
inductive ConnsEvent
  | closeCall (conn : Nat) (result : Option GoErr)
  | noticeAlert (msg : GoStr)
deriving DecidableEq

/-- Tests whether an event is a `NoticeAlert` log call. -/
def ConnsEvent.isAlert : ConnsEvent → Bool
  | .noticeAlert _ => true
  | _ => false

/-- Conns.CloseAll: sets the closed flag, calls `Close` on each tracked
connection (the returned error is discarded; `closeErr` is the oracle for
what each close returns; Go map iteration order is unspecified, so the
trace is a multiset), and installs a fresh empty map. The body contains no
logging call. -/
def Conns.CloseAll (c : Conns) (closeErr : Nat → Option GoErr) :
    Conns × Multiset ConnsEvent :=
  ({ isClosed := true, conns := some ∅ },
   c.members.val.map (fun conn => ConnsEvent.closeCall conn (closeErr conn)))

/-- One call against the registry, for stating what holds across sequences
of operations. -/
inductive ConnsOp
  | add (conn : Nat)
  | remove (conn : Nat)
  | closeAll
  | reset
deriving DecidableEq

/-- State transition of one registry operation (its return value and event
trace dropped). -/
def ConnsOp.apply (closeErr : Nat → Option GoErr) : ConnsOp → Conns → Conns
  | .add conn, c => (c.Add conn).2
  | .remove conn, c => c.Remove conn
  | .closeAll, c => (c.CloseAll closeErr).1
  | .reset, c => c.Reset

/-- Runs a sequence of registry operations from a starting state. -/
def execOps (closeErr : Nat → Option GoErr) : List ConnsOp → Conns → Conns
  | [], c => c
  | op :: ops, c => execOps closeErr ops (op.apply closeErr c)

/-- Every operation other than `Reset` leaves a closed registry closed. -/
theorem execOps_preserves_closed (closeErr : Nat → Option GoErr)
    (ops : List ConnsOp) (c : Conns) (hc : c.isClosed = true)
    (hops : ConnsOp.reset ∉ ops) :
    (execOps closeErr ops c).isClosed = true := by
  induction ops generalizing c with
  | nil => exact hc
  | cons op ops ih =>
    rw [List.mem_cons, not_or] at hops
    refine ih _ ?_ hops.2
    cases op with
    | add conn => simp [ConnsOp.apply, Conns.Add, hc]
    | remove conn => simp [ConnsOp.apply, Conns.Remove, hc]
    | closeAll => simp [ConnsOp.apply, Conns.CloseAll]
    | reset => exact absurd rfl hops.1

/-- CloseAll's trace contains exactly one `Close` call for each connection
that was a member when it ran (map keys are distinct). -/
theorem closeAll_count_member (c : Conns) (closeErr : Nat → Option GoErr)
    (conn : Nat) (h : conn ∈ c.members) :
    Multiset.count (ConnsEvent.closeCall conn (closeErr conn))
      (c.CloseAll closeErr).2 = 1 := by
  have hinj : Function.Injective
      (fun conn => ConnsEvent.closeCall conn (closeErr conn)) := by
    intro a b hab
    exact (by simpa using hab : a = b ∧ closeErr a = closeErr b).1
  rw [Conns.CloseAll]
  rw [Multiset.count_map_eq_count' _ _ hinj]
  exact Multiset.count_eq_one_of_mem c.members.nodup (Finset.mem_def.mp h)

/-- CloseAll makes no `NoticeAlert` call: its trace holds only `Close`
calls. -/
theorem closeAll_no_alert (c : Conns) (closeErr : Nat → Option GoErr) :
    Multiset.countP (fun e => ConnsEvent.isAlert e = true)
      (c.CloseAll closeErr).2 = 0 := by
  rw [Multiset.countP_eq_zero]
  intro a ha
  rw [Conns.CloseAll] at ha
  rcases Multiset.mem_map.mp ha with ⟨b, _, rfl⟩
  simp [ConnsEvent.isAlert]

/-- C4: CloseAll marks the registry closed, invokes Close exactly once on
every connection that was a member at the moment of the call, empties the
membership, and until a Reset every later Add returns false. -/
theorem Conns_CloseAll_spec (c : Conns) (closeErr : Nat → Option GoErr)
    (conn : Nat) (h : conn ∈ c.members)
    (ops : List ConnsOp) (hops : ConnsOp.reset ∉ ops) (conn2 : Nat) :
    (c.CloseAll closeErr).1.isClosed = true ∧
    (c.CloseAll closeErr).1.members = ∅ ∧
    Multiset.count (ConnsEvent.closeCall conn (closeErr conn))
      (c.CloseAll closeErr).2 = 1 ∧
    ((execOps closeErr ops (c.CloseAll closeErr).1).Add conn2).1 = false := by
  refine ⟨rfl, rfl, closeAll_count_member c closeErr conn h, ?_⟩
  have hcl := execOps_preserves_closed closeErr ops (c.CloseAll closeErr).1 rfl hops
  simp [Conns.Add, hcl]

/-- C4 witness: a registry tracking connection 0, closed with error-free
closes, then an add of 5 after the close-all; the add of 7 fails. -/
theorem Conns_CloseAll_spec_witness :
    (0 : Nat) ∈ (Conns.mk false (some {0})).members ∧
    ConnsOp.reset ∉ [ConnsOp.add 5] ∧
    (((Conns.mk false (some {0})).CloseAll
        (fun _ => (none : Option GoErr))).1.isClosed = true ∧
     ((Conns.mk false (some {0})).CloseAll
        (fun _ => (none : Option GoErr))).1.members = ∅ ∧
     Multiset.count (ConnsEvent.closeCall 0 ((fun _ => (none : Option GoErr)) 0))
       ((Conns.mk false (some {0})).CloseAll
         (fun _ => (none : Option GoErr))).2 = 1 ∧
     ((execOps (fun _ => (none : Option GoErr)) [ConnsOp.add 5]
         (((Conns.mk false (some {0})).CloseAll
             (fun _ => (none : Option GoErr))).1)).Add 7).1 = false) :=
  ⟨by decide, by decide,
   Conns_CloseAll_spec (Conns.mk false (some {0}))
     (fun _ => (none : Option GoErr)) 0 (by decide)
     [ConnsOp.add 5] (by decide) 7⟩

/-- C10 counterexample: a registry tracking connection 0 whose Close fails;
CloseAll does invoke Close (the failing call appears in the trace) but logs
no alert at all, against the claim that such a failure is logged as an
alert. -/
theorem Conns_CloseAll_alert_cex :
    Multiset.count
      (ConnsEvent.closeCall 0 (some (GoErr.mk (str "close failed"))))
      ((Conns.mk false (some {0})).CloseAll
        (fun _ => some (GoErr.mk (str "close failed")))).2 = 1 ∧
    Multiset.countP (fun e => ConnsEvent.isAlert e = true)
      ((Conns.mk false (some {0})).CloseAll
        (fun _ => some (GoErr.mk (str "close failed")))).2 = 0 := by
  constructor <;> decide

/-- C10 (amended): a failure of an individual connection's Close is not
fatal and not propagated — CloseAll still closes every tracked connection
exactly once and empties the membership — but the failure is silently
discarded: no alert is logged. -/
theorem Conns_CloseAll_best_effort (c : Conns) (closeErr : Nat → Option GoErr)
    (conn : Nat) (h : conn ∈ c.members) :
    (c.CloseAll closeErr).1.members = ∅ ∧
    Multiset.count (ConnsEvent.closeCall conn (closeErr conn))
      (c.CloseAll closeErr).2 = 1 ∧
    Multiset.countP (fun e => ConnsEvent.isAlert e = true)
      (c.CloseAll closeErr).2 = 0 :=
  ⟨rfl, closeAll_count_member c closeErr conn h, closeAll_no_alert c closeErr⟩

/-- C10 witness: both tracked connections' closes fail, yet connection 1 is
still closed exactly once, membership is emptied, nothing is logged. -/
theorem Conns_CloseAll_best_effort_witness :
    (1 : Nat) ∈ (Conns.mk false (some {0, 1})).members ∧
    (((Conns.mk false (some {0, 1})).CloseAll
        (fun _ => some (GoErr.mk (str "close failed")))).1.members = ∅ ∧
     Multiset.count
       (ConnsEvent.closeCall 1 ((fun _ => some (GoErr.mk (str "close failed"))) 1))
       ((Conns.mk false (some {0, 1})).CloseAll
         (fun _ => some (GoErr.mk (str "close failed")))).2 = 1 ∧
     Multiset.countP (fun e => ConnsEvent.isAlert e = true)
       ((Conns.mk false (some {0, 1})).CloseAll
         (fun _ => some (GoErr.mk (str "close failed")))).2 = 0) :=
  ⟨by decide,
   Conns_CloseAll_best_effort (Conns.mk false (some {0, 1}))
     (fun _ => some (GoErr.mk (str "close failed"))) 1 (by decide)⟩

/-- RemoteServerList (remoteServerList.go): the signed JSON record. -/
structure RemoteServerList where
  Data : GoStr
  SigningPublicKeyDigest : GoStr
  Signature : GoStr
deriving DecidableEq

/-- Config fields consumed by FetchRemoteServerList and
validateRemoteServerList (the remaining Config fields are only forwarded
to the out-of-scope dialer). -/
structure Config where
  RemoteServerListUrl : GoStr
  RemoteServerListSignaturePublicKey : GoStr
deriving DecidableEq

/-- RSA public key handle, as returned by the crypto collaborator. -/
structure RSAPublicKey where
  key : Nat
deriving DecidableEq

/-- Result of `x509.ParsePKIXPublicKey`: the Go `interface{}` either holds
an `*rsa.PublicKey` or some other key type. -/
inductive PKIXPublicKey
  | rsa (k : RSAPublicKey)
  | nonRSA (k : Nat)
deriving DecidableEq

/-- Bytes of a Go string, as `[]byte(s)` produces them (abstracted to the
character codes). -/
def strBytes (s : GoStr) : List Nat := s.map Char.toNat

/-- Oracles for the crypto collaborators validateRemoteServerList calls:
`base64.StdEncoding.DecodeString`, `x509.ParsePKIXPublicKey`, the SHA-256
digest, and `rsa.VerifyPKCS1v15 key crypto.SHA256 digest signature`. -/
structure CryptoEnv where
  base64DecodeString : GoStr → Except GoErr (List Nat)
  parsePKIXPublicKey : List Nat → Except GoErr PKIXPublicKey
  sha256Sum : List Nat → List Nat
  verifyPKCS1v15 : RSAPublicKey → List Nat → List Nat → Except GoErr Unit

/-- validateRemoteServerList (remoteServerList.go): decode the configured
base64 public key, parse it as PKIX, require an RSA key, decode the
record's base64 signature, hash the bytes of the record's Data string with
SHA-256, and verify the signature with PKCS#1 v1.5; every failure is
returned wrapped by ContextError. The record's SigningPublicKeyDigest is
never read. -/
def validateRemoteServerList (env : CryptoEnv) (config : Config)
    (remoteServerList : RemoteServerList) : Except GoErr Unit :=
  match env.base64DecodeString config.RemoteServerListSignaturePublicKey with
  | .error e => .error (ContextError e)
  | .ok derEncodedPublicKey =>
    match env.parsePKIXPublicKey derEncodedPublicKey with
    | .error e => .error (ContextError e)
    | .ok publicKey =>
      match publicKey with
      | .nonRSA _ =>
        .error (ContextError (GoErr.mk
          (str "unexpected RemoteServerListSignaturePublicKey key type")))
      | .rsa rsaPublicKey =>
        match env.base64DecodeString remoteServerList.Signature with
        | .error e => .error (ContextError e)
        | .ok signature =>
          let digest := env.sha256Sum (strBytes remoteServerList.Data)
          match env.verifyPKCS1v15 rsaPublicKey digest signature with
          | .error e => .error (ContextError e)
          | .ok () => .ok ()

/-- Calls FetchRemoteServerList makes to the downstream collaborators that
must be gated behind signature validation. -/
inductive FetchEvent
  | decodeCall (data : GoStr)
  | storeCall (entries : List GoStr) (replaceIsAuthoritative : Bool)
deriving DecidableEq

/-- Oracles for FetchRemoteServerList's collaborators: the HTTP GET (its
success yields a response-body handle), `ioutil.ReadAll` on that body,
`json.Unmarshal` into a RemoteServerList, and the downstream
DecodeAndValidateServerEntryList and StoreServerEntries. -/
structure FetchEnv where
  crypto : CryptoEnv
  httpGet : GoStr → Except GoErr Nat
  readAll : Nat → Except GoErr (List Nat)
  jsonUnmarshal : List Nat → Except GoErr RemoteServerList
  decodeAndValidateServerEntryList : GoStr → Except GoErr (List GoStr)
  storeServerEntries : List GoStr → Bool → Except GoErr Unit

/-- FetchRemoteServerList (remoteServerList.go): GET the configured URL,
read the body, unmarshal the record, validate its signature, and only then
decode the Data field and store the entries (with the replace flag true);
each failure returns a ContextError-wrapped error immediately. The second
component is the trace of downstream calls actually made. -/
def FetchRemoteServerList (env : FetchEnv) (config : Config) :
    Except GoErr Unit × List FetchEvent :=
  match env.httpGet config.RemoteServerListUrl with
  | .error e => (.error (ContextError e), [])
  | .ok response =>
    match env.readAll response with
    | .error e => (.error (ContextError e), [])
    | .ok body =>
      match env.jsonUnmarshal body with
      | .error e => (.error (ContextError e), [])
      | .ok remoteServerList =>
        match validateRemoteServerList env.crypto config remoteServerList with
        | .error e => (.error (ContextError e), [])
        | .ok () =>
          match env.decodeAndValidateServerEntryList remoteServerList.Data with
          | .error e =>
            (.error (ContextError e),
             [FetchEvent.decodeCall remoteServerList.Data])
          | .ok serverEntries =>
            match env.storeServerEntries serverEntries true with
            | .error e =>
              (.error (ContextError e),
               [FetchEvent.decodeCall remoteServerList.Data,
                FetchEvent.storeCall serverEntries true])
            | .ok () =>
              (.ok (),
               [FetchEvent.decodeCall remoteServerList.Data,
                FetchEvent.storeCall serverEntries true])

/-- Stages of FetchRemoteServerList before any downstream call: GET, read,
unmarshal, validate; returns the validated record, or the first stage's
ContextError-wrapped error. -/
def fetchValidatedRecord (env : FetchEnv) (config : Config) :
    Except GoErr RemoteServerList :=
  match env.httpGet config.RemoteServerListUrl with
  | .error e => .error (ContextError e)
  | .ok response =>
    match env.readAll response with
    | .error e => .error (ContextError e)
    | .ok body =>
      match env.jsonUnmarshal body with
      | .error e => .error (ContextError e)
      | .ok remoteServerList =>
        match validateRemoteServerList env.crypto config remoteServerList with
        | .error e => .error (ContextError e)
        | .ok () => .ok remoteServerList

/-- C1: a decode call happens only for the Data of a record the whole
earlier pipeline (fetch, read, unmarshal, signature validation) accepted; a
store call happens only after such a decode call on the same record, with
the replace flag true; and when any earlier stage fails, no downstream call
is made at all and the function returns that stage's contextualized
error. -/
theorem FetchRemoteServerList_gate (env : FetchEnv) (config : Config) :
    (∀ d, FetchEvent.decodeCall d ∈ (FetchRemoteServerList env config).2 →
      ∃ r, fetchValidatedRecord env config = Except.ok r ∧
        validateRemoteServerList env.crypto config r = Except.ok () ∧
        r.Data = d) ∧
    (∀ es rep,
      FetchEvent.storeCall es rep ∈ (FetchRemoteServerList env config).2 →
      rep = true ∧
      ∃ r, fetchValidatedRecord env config = Except.ok r ∧
        validateRemoteServerList env.crypto config r = Except.ok () ∧
        env.decodeAndValidateServerEntryList r.Data = Except.ok es ∧
        (FetchRemoteServerList env config).2 =
          [FetchEvent.decodeCall r.Data, FetchEvent.storeCall es true]) ∧
    (∀ e0, fetchValidatedRecord env config = Except.error e0 →
      (FetchRemoteServerList env config).2 = [] ∧
      (FetchRemoteServerList env config).1 = Except.error e0 ∧
      ∃ e1, e0 = GoErr.context e1) := by
  cases hg : env.httpGet config.RemoteServerListUrl with
  | error e =>
    simp [FetchRemoteServerList, fetchValidatedRecord, hg, ContextError]
  | ok response =>
    cases hr : env.readAll response with
    | error e =>
      simp [FetchRemoteServerList, fetchValidatedRecord, hg, hr, ContextError]
    | ok body =>
      cases hj : env.jsonUnmarshal body with
      | error e =>
        simp [FetchRemoteServerList, fetchValidatedRecord, hg, hr, hj,
          ContextError]
      | ok r =>
        cases hv : validateRemoteServerList env.crypto config r with
        | error e =>
          simp [FetchRemoteServerList, fetchValidatedRecord, hg, hr, hj, hv,
            ContextError]
        | ok u =>
          cases u
          cases hd : env.decodeAndValidateServerEntryList r.Data with
          | error e =>
            simp [FetchRemoteServerList, fetchValidatedRecord, hg, hr, hj,
              hv, hd]
          | ok es =>
            cases hs : env.storeServerEntries es true with
            | error e =>
              simp [FetchRemoteServerList, fetchValidatedRecord, hg, hr, hj,
                hv, hd, hs]
            | ok u' =>
              cases u'
              simp [FetchRemoteServerList, fetchValidatedRecord, hg, hr, hj,
                hv, hd, hs]

/-- C2: validateRemoteServerList succeeds exactly when the configured
public key base64-decodes, parses as PKIX specifically to an RSA key, the
record's signature base64-decodes, and PKCS#1 v1.5 verification of that
decoded signature succeeds against the SHA-256 digest of the bytes of the
record's Data string. -/
theorem validateRemoteServerList_spec (env : CryptoEnv) (config : Config)
    (r : RemoteServerList) :
    validateRemoteServerList env config r = Except.ok () ↔
      ∃ der rsaKey sig,
        env.base64DecodeString config.RemoteServerListSignaturePublicKey =
          Except.ok der ∧
        env.parsePKIXPublicKey der = Except.ok (PKIXPublicKey.rsa rsaKey) ∧
        env.base64DecodeString r.Signature = Except.ok sig ∧
        env.verifyPKCS1v15 rsaKey (env.sha256Sum (strBytes r.Data)) sig =
          Except.ok () := by
  cases hk : env.base64DecodeString config.RemoteServerListSignaturePublicKey with
  | error e => simp [validateRemoteServerList, hk]
  | ok der =>
    cases hp : env.parsePKIXPublicKey der with
    | error e => simp [validateRemoteServerList, hk, hp]
    | ok pk =>
      cases pk with
      | nonRSA k => simp [validateRemoteServerList, hk, hp]
      | rsa rsaKey =>
        cases hs : env.base64DecodeString r.Signature with
        | error e => simp [validateRemoteServerList, hk, hp, hs]
        | ok sig =>
          cases hv : env.verifyPKCS1v15 rsaKey
              (env.sha256Sum (strBytes r.Data)) sig with
          | error e => simp [validateRemoteServerList, hk, hp, hs, hv]
          | ok u => cases u; simp [validateRemoteServerList, hk, hp, hs, hv]

/-- C3: the record's SigningPublicKeyDigest field is never consulted —
validation of two records identical except in that field returns the same
result. -/
theorem validateRemoteServerList_ignores_digest (env : CryptoEnv)
    (config : Config) (data d1 d2 sig : GoStr) :
    validateRemoteServerList env config ⟨data, d1, sig⟩ =
      validateRemoteServerList env config ⟨data, d2, sig⟩ :=
  rfl

/-- Index of the first occurrence of a byte in a Go string (`byteIndex` in
the net package; `none` models the -1 return). -/
def byteIndex : GoStr → Char → Option Nat
  | [], _ => none
  | c :: cs, b => if c = b then some 0 else (byteIndex cs b).map (· + 1)

/-- Index of the last occurrence of a byte in a Go string (`last` in the
net package; `none` models the -1 return). -/
def lastByteIndex : GoStr → Char → Option Nat
  | [], _ => none
  | c :: cs, b =>
    match lastByteIndex cs b with
    | some i => some (i + 1)
    | none => if c = b then some 0 else none

/-- Message of a `net.AddrError` with the given cause and address. -/
def addrErr (why addr : GoStr) : GoErr :=
  GoErr.mk (str "address " ++ addr ++ str ": " ++ why)

/-- net.SplitHostPort from the Go standard library of this code's era
(an external collaborator of HttpProxyConnect): the port starts after the
last colon; a leading bracket delimits an IPv6 host; stray colons or
brackets are errors. -/
def splitHostPort (hostport : GoStr) : Except GoErr (GoStr × GoStr) :=
  match lastByteIndex hostport ':' with
  | none => .error (addrErr (str "missing port in address") hostport)
  | some i =>
    if hostport.head? = some '[' then
      match byteIndex hostport ']' with
      | none => .error (addrErr (str "missing right bracket in address") hostport)
      | some en =>
        if en + 1 = hostport.length then
          .error (addrErr (str "missing port in address") hostport)
        else if en + 1 = i then
          if (byteIndex (hostport.drop 1) '[').isSome then
            .error (addrErr (str "unexpected left bracket in address") hostport)
          else if (byteIndex (hostport.drop (en + 1)) ']').isSome then
            .error (addrErr (str "unexpected right bracket in address") hostport)
          else .ok ((hostport.drop 1).take (en - 1), hostport.drop (i + 1))
        else if hostport[en + 1]? = some ':' then
          .error (addrErr (str "too many colons in address") hostport)
        else .error (addrErr (str "missing port in address") hostport)
    else
      if (byteIndex (hostport.take i) ':').isSome then
        .error (addrErr (str "too many colons in address") hostport)
      else if (byteIndex (hostport.take i) '%').isSome then
        .error (addrErr (str "missing brackets in address") hostport)
      else if (byteIndex hostport '[').isSome then
        .error (addrErr (str "unexpected left bracket in address") hostport)
      else if (byteIndex hostport ']').isSome then
        .error (addrErr (str "unexpected right bracket in address") hostport)
      else .ok (hostport.take i, hostport.drop (i + 1))

/-- strings.SplitN with limit 2 and a one-byte separator: the piece before
the first separator and everything after it, or the whole string in a
one-element list when the separator does not occur. -/
def splitN2 (s : GoStr) (sep : Char) : List GoStr :=
  if sep ∈ s then [s.takeWhile (· ≠ sep), (s.dropWhile (· ≠ sep)).tail]
  else [s]

/-- strings.SplitN with limit 3 and a one-byte separator. -/
def splitN3 (s : GoStr) (sep : Char) : List GoStr :=
  match splitN2 s sep with
  | [a, rest] => a :: splitN2 rest sep
  | l => l

/-- textproto ReadLine on a byte stream: the bytes up to the first newline
with the trailing carriage return stripped, and the remaining bytes;
`none` when no full line is available (EOF). -/
def takeLine (s : GoStr) : Option (GoStr × GoStr) :=
  match byteIndex s '\n' with
  | none => none
  | some i =>
    let raw := s.take i
    some (if raw.getLast? = some '\r' then raw.dropLast else raw,
          s.drop (i + 1))

/-- strconv.Atoi restricted to the unsigned decimal forms this code meets:
a nonempty digit string parses to its value, anything else is an error. -/
def atoi (s : GoStr) : Option Nat :=
  if s ≠ [] ∧ s.all (fun c => c.isDigit) then
    some (s.foldl (fun acc c => acc * 10 + (c.toNat - Char.toNat '0')) 0)
  else none

/-- http.ParseHTTPVersion as a success test: the two fast cases, else an
"HTTP/" literal followed by dot-separated numbers. -/
def parseHTTPVersionOk (vers : GoStr) : Bool :=
  if vers = str "HTTP/1.1" then true
  else if vers = str "HTTP/1.0" then true
  else if vers.take 5 ≠ str "HTTP/" then false
  else
    match byteIndex (vers.drop 5) '.' with
    | none => false
    | some d =>
      (atoi ((vers.drop 5).take d)).isSome &&
      (atoi ((vers.drop 5).drop (d + 1))).isSome

/-- textproto ReadMIMEHeader as a success test, fuelled by the remaining
length: header lines (each containing a colon) up to an empty line. -/
def readMIMEHeaderOkFuel : Nat → GoStr → Bool
  | 0, _ => false
  | fuel + 1, s =>
    match takeLine s with
    | none => false
    | some (line, rest) =>
      if line = [] then true
      else if (byteIndex line ':').isSome then readMIMEHeaderOkFuel fuel rest
      else false

/-- Runs the MIME-header test with enough fuel for the whole input (each
line consumes at least the newline byte). -/
def readMIMEHeaderOk (s : GoStr) : Bool := readMIMEHeaderOkFuel (s.length + 1) s

/-- Fields of `http.Response` this code reads. -/
structure HttpResponse where
  Status : GoStr
  StatusCode : Nat
deriving DecidableEq

/-- http.ReadResponse of this code's era, over the readable bytes: split
the status line at spaces into at most three fields, require at least two,
set `Status` to the code field, a space, and the (possibly empty) reason
phrase, parse the code with Atoi, check the HTTP version field, then parse
the headers. (Body framing after the header block is out of scope: no
claim reads past the headers.) -/
def goReadResponse (input : GoStr) : Except GoErr HttpResponse :=
  match takeLine input with
  | none => .error (GoErr.mk (str "unexpected EOF"))
  | some (line, rest) =>
    if (splitN3 line ' ').length < 2 then
      .error (GoErr.mk (str "malformed HTTP response"))
    else
      match atoi ((splitN3 line ' ').getD 1 []) with
      | none => .error (GoErr.mk (str "malformed HTTP status code"))
      | some code =>
        if parseHTTPVersionOk ((splitN3 line ' ').getD 0 []) = false then
          .error (GoErr.mk (str "malformed HTTP version"))
        else if readMIMEHeaderOk rest then
          .ok { Status := (splitN3 line ' ').getD 1 [] ++ ' ' ::
                  (if 2 < (splitN3 line ' ').length
                   then (splitN3 line ' ').getD 2 [] else []),
                StatusCode := code }
        else .error (GoErr.mk (str "malformed MIME header"))

/-- Established connection to the proxy, as HttpProxyConnect observes it:
the bytes the proxy will answer with, and whether the write fails. -/
structure ProxyConn where
  readable : GoStr
  writeErr : Option GoErr

/-- Connect request bytes HttpProxyConnect formats
(`CONNECT %s HTTP/1.1\r\nHost: %s\r\nConnection: Keep-Alive\r\n\r\n`). -/
def connectRequest (addr hostname : GoStr) : GoStr :=
  str "CONNECT " ++ addr ++ str " HTTP/1.1\r\nHost: " ++ hostname ++
    str "\r\nConnection: Keep-Alive\r\n\r\n"

/-- HttpProxyConnect (remoteServerList.go companion file): split the target
address, write the CONNECT request, read one HTTP response, succeed only on
status 200; on another status the error holds the status string with its
first space-separated field (the numeric code) stripped. The second
component is the bytes written to the connection. -/
def HttpProxyConnect (rawConn : ProxyConn) (addr : GoStr) :
    Except GoErr Unit × GoStr :=
  match splitHostPort addr with
  | .error e => (.error (ContextError e), [])
  | .ok (hostname, _port) =>
    match rawConn.writeErr with
    | some e => (.error (ContextError e), [])
    | none =>
      match goReadResponse rawConn.readable with
      | .error e => (.error (ContextError e), connectRequest addr hostname)
      | .ok response =>
        if response.StatusCode ≠ 200 then
          (.error (ContextError (GoErr.mk
              ((splitN2 response.Status ' ').getD 1 []))),
           connectRequest addr hostname)
        else (.ok (), connectRequest addr hostname)

/-- C5: Add returns true and inserts the connection when the registry is
not closed, and returns false leaving the state (hence the membership)
unchanged when it is closed. -/
theorem Conns_Add_spec (c : Conns) (conn : Nat) :
    (c.isClosed = false →
      (c.Add conn).1 = true ∧ conn ∈ (c.Add conn).2.members) ∧
    (c.isClosed = true →
      (c.Add conn).1 = false ∧ (c.Add conn).2 = c) := by
  constructor
  · intro h
    cases hm : c.conns <;> simp [Conns.Add, Conns.members, h, hm]
  · intro h
    simp [Conns.Add, h]

/-- C6: Reset clears the closed flag and empties the membership, and an Add
immediately afterwards succeeds and tracks the connection. -/
theorem Conns_Reset_spec (c : Conns) (conn : Nat) :
    (c.Reset).isClosed = false ∧ (c.Reset).members = ∅ ∧
    ((c.Reset).Add conn).1 = true ∧
    conn ∈ ((c.Reset).Add conn).2.members := by
  refine ⟨rfl, rfl, ?_, ?_⟩ <;> simp [Conns.Reset, Conns.Add, Conns.members]

/-- A byte absent from a string has no first index. -/
theorem byteIndex_of_not_mem (s : GoStr) (c : Char) (h : c ∉ s) :
    byteIndex s c = none := by
  induction s with
  | nil => rfl
  | cons x xs ih =>
    rw [List.mem_cons, not_or] at h
    simp [byteIndex, Ne.symm h.1, ih h.2]

/-- A byte absent from a string has no last index. -/
theorem lastByteIndex_of_not_mem (s : GoStr) (c : Char) (h : c ∉ s) :
    lastByteIndex s c = none := by
  induction s with
  | nil => rfl
  | cons x xs ih =>
    rw [List.mem_cons, not_or] at h
    simp [lastByteIndex, Ne.symm h.1, ih h.2]

/-- The last occurrence of a separator not occurring after it sits right
after the first part. -/
theorem lastByteIndex_append (a b : GoStr) (c : Char) (hb : c ∉ b) :
    lastByteIndex (a ++ c :: b) c = some a.length := by
  induction a with
  | nil =>
    rw [List.nil_append]
    show lastByteIndex (c :: b) c = some 0
    rw [lastByteIndex, lastByteIndex_of_not_mem b c hb]
    simp
  | cons x xs ih =>
    rw [List.cons_append]
    show lastByteIndex (x :: (xs ++ c :: b)) c = some (x :: xs).length
    rw [lastByteIndex, ih]
    simp

/-- Dropping one past the separator of an appended string leaves the
second part. -/
theorem drop_append_cons (a b : GoStr) (c : Char) :
    (a ++ c :: b).drop (a.length + 1) = b := by
  have h1 : a ++ c :: b = (a ++ [c]) ++ b := by simp
  have h2 : a.length + 1 = (a ++ [c]).length := by simp
  rw [h1, h2]
  exact List.drop_left _ _

/-- takeWhile up to a separator absent from the first part takes exactly
that part. -/
theorem takeWhile_append_sep (a b : GoStr) (sep : Char) (h : sep ∉ a) :
    (a ++ sep :: b).takeWhile (fun c => c ≠ sep) = a := by
  induction a with
  | nil => simp
  | cons x xs ih =>
    rw [List.mem_cons, not_or] at h
    rw [List.cons_append, List.takeWhile_cons,
      if_pos (by simp [Ne.symm h.1]), ih h.2]

/-- dropWhile up to a separator absent from the first part leaves the
separator and the second part. -/
theorem dropWhile_append_sep (a b : GoStr) (sep : Char) (h : sep ∉ a) :
    (a ++ sep :: b).dropWhile (fun c => c ≠ sep) = sep :: b := by
  induction a with
  | nil => simp
  | cons x xs ih =>
    rw [List.mem_cons, not_or] at h
    rw [List.cons_append, List.dropWhile_cons,
      if_pos (by simp [Ne.symm h.1]), ih h.2]

/-- SplitN with limit 2 around the first occurrence of the separator. -/
theorem splitN2_append (a b : GoStr) (sep : Char) (h : sep ∉ a) :
    splitN2 (a ++ sep :: b) sep = [a, b] := by
  rw [splitN2, if_pos (by simp), takeWhile_append_sep a b sep h,
    dropWhile_append_sep a b sep h]
  rfl

/-- Atoi accepts only digit strings, so its argument holds no space. -/
theorem atoi_no_space (s : GoStr) (n : Nat) (h : atoi s = some n) :
    ' ' ∉ s := by
  rw [atoi] at h
  split at h
  · rename_i hcond
    intro hm
    simpa using List.all_eq_true.mp hcond.2 ' ' hm
  · exact absurd h (by simp)

/-- Every response ReadResponse accepts has a Status of the shape
`code ++ " " ++ reason` with a space-free code field parsed by Atoi. -/
theorem goReadResponse_ok_status (input : GoStr) (resp : HttpResponse)
    (h : goReadResponse input = Except.ok resp) :
    ∃ codeStr reason, resp.Status = codeStr ++ ' ' :: reason ∧
      atoi codeStr = some resp.StatusCode ∧ ' ' ∉ codeStr := by
  rw [goReadResponse] at h
  split at h
  · exact absurd h (by simp)
  · rename_i line rest
    split at h
    · exact absurd h (by simp)
    · split at h
      · exact absurd h (by simp)
      · rename_i code hcode
        split at h
        · exact absurd h (by simp)
        · split at h
          · injection h with h1
            subst h1
            exact ⟨_, _, rfl, hcode, atoi_no_space _ _ hcode⟩
          · exact absurd h (by simp)

/-- SplitHostPort accepts `host:port` when host and port are free of
colons and brackets (and the host of percent signs), returning exactly the
two parts. -/
theorem splitHostPort_hostport (host port : GoStr)
    (hc : ':' ∉ host) (hb1 : '[' ∉ host) (hb2 : ']' ∉ host) (hz : '%' ∉ host)
    (pc : ':' ∉ port) (pb1 : '[' ∉ port) (pb2 : ']' ∉ port) :
    splitHostPort (host ++ ':' :: port) = Except.ok (host, port) := by
  have hlast := lastByteIndex_append host port ':' pc
  have hmem1 : '[' ∉ host ++ ':' :: port := by
    simp only [List.mem_append, List.mem_cons, not_or]
    exact ⟨hb1, by decide, pb1⟩
  have hmem2 : ']' ∉ host ++ ':' :: port := by
    simp only [List.mem_append, List.mem_cons, not_or]
    exact ⟨hb2, by decide, pb2⟩
  have hhead : ¬((host ++ ':' :: port).head? = some '[') := by
    cases host with
    | nil => simp
    | cons x xs =>
      have hx : x ≠ '[' := by
        intro hx
        exact hb1 (by simp [hx])
      simp [hx]
  rw [splitHostPort, hlast]
  simp only [if_neg hhead]
  rw [List.take_left, byteIndex_of_not_mem host ':' hc,
    byteIndex_of_not_mem host '%' hz,
    byteIndex_of_not_mem _ '[' hmem1, byteIndex_of_not_mem _ ']' hmem2,
    drop_append_cons]
  simp

/-- C7: for a target of the form host:port (both parts free of colons and
brackets), HttpProxyConnect writes exactly the CONNECT request with the
Host header set to the hostname with the port stripped, and succeeds
exactly when the one response it reads has status code 200; a write
failure and a malformed target address each return an error without the
request reaching the wire, and a malformed response returns an error. -/
theorem HttpProxyConnect_spec (host port : GoStr) (conn : ProxyConn)
    (hc : ':' ∉ host) (hb1 : '[' ∉ host) (hb2 : ']' ∉ host) (hz : '%' ∉ host)
    (pc : ':' ∉ port) (pb1 : '[' ∉ port) (pb2 : ']' ∉ port) :
    splitHostPort (host ++ ':' :: port) = Except.ok (host, port) ∧
    (conn.writeErr = none →
      (HttpProxyConnect conn (host ++ ':' :: port)).2 =
        str "CONNECT " ++ (host ++ ':' :: port) ++ str " HTTP/1.1\r\nHost: " ++
          host ++ str "\r\nConnection: Keep-Alive\r\n\r\n" ∧
      ((HttpProxyConnect conn (host ++ ':' :: port)).1 = Except.ok () ↔
        ∃ resp, goReadResponse conn.readable = Except.ok resp ∧
          resp.StatusCode = 200)) ∧
    (∀ e, conn.writeErr = some e →
      HttpProxyConnect conn (host ++ ':' :: port) =
        (Except.error (ContextError e), [])) ∧
    (∀ addr e, splitHostPort addr = Except.error e →
      HttpProxyConnect conn addr = (Except.error (ContextError e), [])) := by
  have hsp := splitHostPort_hostport host port hc hb1 hb2 hz pc pb1 pb2
  refine ⟨hsp, ?_, ?_, ?_⟩
  · intro hw
    cases hread : goReadResponse conn.readable with
    | error e =>
      constructor
      · simp [HttpProxyConnect, hsp, hw, hread, connectRequest]
      · simp [HttpProxyConnect, hsp, hw, hread]
    | ok resp =>
      by_cases h200 : resp.StatusCode = 200
      · constructor
        · simp [HttpProxyConnect, hsp, hw, hread, h200, connectRequest]
        · simp [HttpProxyConnect, hsp, hw, hread, h200]
      · constructor
        · simp [HttpProxyConnect, hsp, hw, hread, h200, connectRequest]
        · simp [HttpProxyConnect, hsp, hw, hread, h200]
  · intro e hw
    simp [HttpProxyConnect, hsp, hw]
  · intro addr e hsp2
    simp [HttpProxyConnect, hsp2]

/-- C7 witness: target example.com:8080 against a proxy answering
`HTTP/1.1 200 Connection Established`; the exact request bytes go out and
the connect succeeds. -/
theorem HttpProxyConnect_spec_witness :
    (':' ∉ str "example.com") ∧ ('[' ∉ str "example.com") ∧
    (']' ∉ str "example.com") ∧ ('%' ∉ str "example.com") ∧
    (':' ∉ str "8080") ∧ ('[' ∉ str "8080") ∧ (']' ∉ str "8080") ∧
    splitHostPort (str "example.com" ++ ':' :: str "8080") =
      Except.ok (str "example.com", str "8080") ∧
    (HttpProxyConnect
        (ProxyConn.mk (str "HTTP/1.1 200 Connection Established\r\n\r\n") none)
        (str "example.com" ++ ':' :: str "8080")).2 =
      str "CONNECT " ++ (str "example.com" ++ ':' :: str "8080") ++
        str " HTTP/1.1\r\nHost: " ++ str "example.com" ++
        str "\r\nConnection: Keep-Alive\r\n\r\n" ∧
    (HttpProxyConnect
        (ProxyConn.mk (str "HTTP/1.1 200 Connection Established\r\n\r\n") none)
        (str "example.com" ++ ':' :: str "8080")).1 = Except.ok () := by
  have h := HttpProxyConnect_spec (str "example.com") (str "8080")
    (ProxyConn.mk (str "HTTP/1.1 200 Connection Established\r\n\r\n") none)
    (by decide) (by decide) (by decide) (by decide)
    (by decide) (by decide) (by decide)
  refine ⟨by decide, by decide, by decide, by decide, by decide, by decide,
    by decide, h.1, (h.2.1 rfl).1, ?_⟩
  exact (h.2.1 rfl).2.mpr
    ⟨HttpResponse.mk (str "200 Connection Established") 200, rfl, rfl⟩

/-- C8: when the parsed response's status code is not 200, the error's
detail is exactly the reason phrase — the Status string (numeric code,
space, reason) with the code field stripped — and in particular a
`HTTP/1.1 403 Forbidden` reply yields an error whose detail is exactly
`Forbidden`. -/
theorem HttpProxyConnect_reason (conn : ProxyConn) (addr host port : GoStr)
    (resp : HttpResponse)
    (hsp : splitHostPort addr = Except.ok (host, port))
    (hw : conn.writeErr = none)
    (hr : goReadResponse conn.readable = Except.ok resp)
    (h200 : resp.StatusCode ≠ 200) :
    (∃ codeStr reason, resp.Status = codeStr ++ ' ' :: reason ∧
      ' ' ∉ codeStr ∧
      (splitN2 resp.Status ' ').getD 1 [] = reason ∧
      (HttpProxyConnect conn addr).1 =
        Except.error (ContextError (GoErr.mk reason)) ∧
      (ContextError (GoErr.mk reason)).detail = reason) ∧
    (HttpProxyConnect
        (ProxyConn.mk (str "HTTP/1.1 403 Forbidden\r\n\r\n") none)
        (str "example.com:8080")).1 =
      Except.error (GoErr.context (GoErr.mk (str "Forbidden"))) ∧
    (GoErr.context (GoErr.mk (str "Forbidden"))).detail = str "Forbidden" := by
  obtain ⟨codeStr, reason, hst, hcode, hspace⟩ := goReadResponse_ok_status _ _ hr
  have hgd : (splitN2 resp.Status ' ').getD 1 [] = reason := by
    rw [hst, splitN2_append _ _ _ hspace]
    rfl
  refine ⟨⟨codeStr, reason, hst, hspace, hgd, ?_, rfl⟩, rfl, rfl⟩
  have hgd2 : (splitN2 resp.Status ' ')[1]?.getD [] = reason := by
    rw [hst, splitN2_append _ _ _ hspace]
    simp
  simp [HttpProxyConnect, hsp, hw, hr, h200, hgd2]

/-- C8 witness: a proxy answering `HTTP/1.1 404 Not Found`; the error
detail is the reason phrase, and the 403 Forbidden case is exact. -/
theorem HttpProxyConnect_reason_witness :
    splitHostPort (str "example.com:8080") =
      Except.ok (str "example.com", str "8080") ∧
    (ProxyConn.mk (str "HTTP/1.1 404 Not Found\r\n\r\n") none).writeErr =
      none ∧
    goReadResponse (str "HTTP/1.1 404 Not Found\r\n\r\n") =
      Except.ok (HttpResponse.mk (str "404 Not Found") 404) ∧
    (HttpResponse.mk (str "404 Not Found") 404).StatusCode ≠ 200 ∧
    ((∃ codeStr reason,
        (HttpResponse.mk (str "404 Not Found") 404).Status =
          codeStr ++ ' ' :: reason ∧
        ' ' ∉ codeStr ∧
        (splitN2 (HttpResponse.mk (str "404 Not Found") 404).Status ' ').getD
          1 [] = reason ∧
        (HttpProxyConnect
            (ProxyConn.mk (str "HTTP/1.1 404 Not Found\r\n\r\n") none)
            (str "example.com:8080")).1 =
          Except.error (ContextError (GoErr.mk reason)) ∧
        (ContextError (GoErr.mk reason)).detail = reason) ∧
      (HttpProxyConnect
          (ProxyConn.mk (str "HTTP/1.1 403 Forbidden\r\n\r\n") none)
          (str "example.com:8080")).1 =
        Except.error (GoErr.context (GoErr.mk (str "Forbidden"))) ∧
      (GoErr.context (GoErr.mk (str "Forbidden"))).detail = str "Forbidden") :=
  ⟨rfl, rfl, rfl, by decide,
   HttpProxyConnect_reason
     (ProxyConn.mk (str "HTTP/1.1 404 Not Found\r\n\r\n") none)
     (str "example.com:8080") (str "example.com") (str "8080")
     (HttpResponse.mk (str "404 Not Found") 404) rfl rfl rfl (by decide)⟩

/-- C9: the reason-phrase extraction is total — every response
ReadResponse accepts has a Status that splits at the first space into
exactly two components, so index 1 is in bounds even when the status line
carries no reason phrase. -/
theorem goReadResponse_status_split_total (input : GoStr)
    (resp : HttpResponse) (h : goReadResponse input = Except.ok resp) :
    (splitN2 resp.Status ' ').length = 2 := by
  obtain ⟨codeStr, reason, hst, _, hspace⟩ := goReadResponse_ok_status _ _ h
  rw [hst, splitN2_append _ _ _ hspace]
  rfl

/-- C9 witness: a status line with no reason phrase still parses to a
Status (`"403 "`) whose split has two components. -/
theorem goReadResponse_status_split_total_witness :
    goReadResponse (str "HTTP/1.1 403\r\n\r\n") =
      Except.ok (HttpResponse.mk (str "403 ") 403) ∧
    (splitN2 (HttpResponse.mk (str "403 ") 403).Status ' ').length = 2 :=
  ⟨rfl, goReadResponse_status_split_total (str "HTTP/1.1 403\r\n\r\n")
    (HttpResponse.mk (str "403 ") 403) rfl⟩
